import Mathlib

/-!
Shallow embedding of the bal.rs load balancer's configuration layer
(src/main.rs): the `Server` and `Config` data types, `Server::new`,
`Config::new`, `Config::update`, the algorithm enumeration with
`get_algo` / `get_algo_rev`, and the control flow of `main` around the
server-count flag.  Durations are modelled as natural numbers of seconds
(the code only ever builds them with `Duration::from_secs`), `u32`/`u64`
as naturals bounded by the parser, and Rust panics / `io::Result` errors
as an explicit error type: both abort startup.  The Rust string
primitives used by `Config::update` (`starts_with`,
`trim_start_matches`, `trim`, `split(",")`, numeric `parse`) are
modelled by structurally recursive functions on the character list of a
`String`.
-/

/-- Rust `str::starts_with` on character lists: the first argument is a
possible leading segment of the second. -/
def leadsWith : List Char → List Char → Bool
  | [], _ => true
  | _ :: _, [] => false
  | p :: ps, c :: cs => p = c && leadsWith ps cs

/-- Rust `str::starts_with` for string patterns. -/
def rustStartsWith (p s : String) : Bool :=
  leadsWith p.data s.data

/-- One pass of repeated front stripping for `str::trim_start_matches`,
with fuel: Rust strips the pattern from the front as often as it
matches.  Fuel `s.length` suffices since each step removes at least one
character of a nonempty pattern. -/
def stripAll : Nat → List Char → List Char → List Char
  | 0, _, s => s
  | n + 1, p, s =>
      if p ≠ [] ∧ leadsWith p s then stripAll n p (s.drop p.length) else s

/-- Rust `str::trim_start_matches` for string patterns. -/
def trimStartMatches (p s : String) : String :=
  String.mk (stripAll s.data.length p.data s.data)

/-- Rust `str::trim`: drop whitespace from both ends. -/
def rustTrim (s : String) : String :=
  String.mk (((s.data.dropWhile Char.isWhitespace).reverse.dropWhile
    Char.isWhitespace).reverse)

/-- Rust `str::split` with a one-character separator, as used by
`Config::update` with `","`: splitting an empty string yields one empty
piece, matching Rust. -/
def splitChar (c : Char) : List Char → List (List Char)
  | [] => [[]]
  | x :: xs =>
      let r := splitChar c xs
      if x = c then [] :: r
      else
        match r with
        | [] => [[x]]
        | y :: ys => (x :: y) :: ys

/-- `s.split(",")` of Rust, producing the comma-separated pieces. -/
def splitOnComma (s : String) : List String :=
  (splitChar ',' s.data).map String.mk

/-- Decimal digits to a natural number, most significant first. -/
def digitsToNat : List Char → Nat → Nat
  | [], acc => acc
  | c :: cs, acc => digitsToNat cs (acc * 10 + (c.toNat - 48))

/-- Parse a nonempty all-digit character list as a natural number. -/
def parseDigits (l : List Char) : Option Nat :=
  if l ≠ [] ∧ l.all Char.isDigit then some (digitsToNat l 0) else none

/-- Model of Rust `str::parse` for an unsigned integer type with
exclusive upper `bound`: an optional leading plus sign followed by one
or more ASCII digits, value below the bound (overflow is a parse
error). -/
def parseRustNat (bound : Nat) (s : String) : Option Nat :=
  let t :=
    match s.data with
    | '+' :: rest => rest
    | l => l
  match parseDigits t with
  | some n => if n < bound then some n else none
  | none => none

/-- Model of `str::parse::<u32>`. -/
def parseU32 (s : String) : Option Nat :=
  parseRustNat (2 ^ 32) s

/-- Model of `str::parse::<u64>`. -/
def parseU64 (s : String) : Option Nat :=
  parseRustNat (2 ^ 64) s

/-- Model of `hyper::Uri` (external library type): the code only stores,
clones, compares and prints URIs, so we retain the parsed string. -/
structure Uri where
  raw : String
deriving DecidableEq

/-- Model of `str::parse::<hyper::Uri>` (external library code): parsing
succeeds on a nonempty string containing no whitespace and keeps the
string. -/
def parseUri (s : String) : Option Uri :=
  if s.data ≠ [] ∧ s.data.all (fun c => ¬ c.isWhitespace) then some ⟨s⟩ else none

/-- The `Algorithm` enum of src/main.rs. -/
inductive Algorithm where
  | RoundRobin
  | WeightedRoundRobin
  | LeastConnections
  | WeightedLeastConnections
  | LeastResponseTime
  | WeightedLeastResponseTime
deriving DecidableEq

/-- `get_algo` of src/main.rs: string identifier to algorithm, any
unrecognized identifier defaulting to round robin. -/
def get_algo (algo : String) : Algorithm :=
  if algo = "round_robin" then .RoundRobin
  else if algo = "weighted_round_robin" then .WeightedRoundRobin
  else if algo = "least_connections" then .LeastConnections
  else if algo = "weighted_least_connections" then .WeightedLeastConnections
  else if algo = "least_response_time" then .LeastResponseTime
  else if algo = "weighted_least_response_time" then .WeightedLeastResponseTime
  else .RoundRobin

/-- `get_algo_rev` of src/main.rs: algorithm back to its string
identifier. -/
def get_algo_rev (algo : Algorithm) : String :=
  match algo with
  | .RoundRobin => "round_robin"
  | .WeightedRoundRobin => "weighted_round_robin"
  | .LeastConnections => "least_connections"
  | .WeightedLeastConnections => "weighted_least_connections"
  | .LeastResponseTime => "least_response_time"
  | .WeightedLeastResponseTime => "weighted_least_response_time"

/-- The `Server` struct of src/main.rs. `response_time` is a duration in
seconds (the code initialises it with `Duration::from_secs(0)`);
`connections`, `weight` and `max_connections` are `u32` values. -/
structure Server where
  addr : Uri
  weight : Nat
  response_time : Nat
  connections : Nat
  max_connections : Nat
deriving DecidableEq

/-- `Server::new` of src/main.rs. -/
def Server.new (addr : Uri) (weight max_connections : Nat) : Server :=
  { addr := addr
    weight := weight
    max_connections := max_connections
    response_time := 0
    connections := 0 }

/-- The `Config` struct of src/main.rs; durations in seconds. -/
structure Config where
  load_balancer : Uri
  algo : Algorithm
  servers : List Server
  timeout : Nat
  health_check_interval : Nat
  dead_servers : List Server
deriving DecidableEq

/-- The default load balancer address
`"http://127.0.0.1:8000".parse::<hyper::Uri>().unwrap()`; this unwrap
cannot fail on the literal. -/
def defaultLoadBalancer : Uri :=
  (parseUri "http://127.0.0.1:8000").getD ⟨""⟩

/-- `Config::new` of src/main.rs. -/
def Config.new : Config :=
  { load_balancer := defaultLoadBalancer
    algo := .RoundRobin
    servers := []
    timeout := 0
    health_check_interval := 0
    dead_servers := [] }

/-- The ways `Config::update` can abort the process: each `expect` panic
and the out-of-bounds index panic of the final push loop.  I/O errors of
`File::open` / `lines()` are not modelled: `update` is given the list of
lines of the file. -/
inductive UpdateError where
  | invalidUri
  | invalidWeight
  | invalidMaxConnection
  | invalidTimeout
  | invalidInterval
  | indexOutOfBounds
deriving DecidableEq

/-- The mutable state of `Config::update`'s line loop: the config being
mutated plus the local `servers`, `weights` and `max_connections`
vectors. -/
structure UpdSt where
  cfg : Config
  servers : List Uri
  weights : List Nat
  maxConns : List Nat
deriving DecidableEq

/-- The `servers:` branch's
`split(",").map(|s| s.trim().parse().expect("Invalid URI")).collect()`:
parse every entry, panicking at the first invalid URI. -/
def parseUriList : List String → Except UpdateError (List Uri)
  | [] => .ok []
  | s :: rest =>
      match parseUri s with
      | none => .error .invalidUri
      | some u =>
          match parseUriList rest with
          | .error e => .error e
          | .ok us => .ok (u :: us)

/-- The analogous collect-with-expect loop for numeric lists (`weights:`
and `max connections:`), panicking with the given error at the first
entry that fails `parse`. -/
def parseNatList (parse : String → Option Nat) (e : UpdateError) :
    List String → Except UpdateError (List Nat)
  | [] => .ok []
  | s :: rest =>
      match parse s with
      | none => .error e
      | some n =>
          match parseNatList parse e rest with
          | .error e' => .error e'
          | .ok ns => .ok (n :: ns)

/-- One iteration of the `for line in reader.lines()` loop of
`Config::update`: the if-else chain on the line's leading text.  `addr?`
and `algo?` are the CLI overrides (the `addr` and `algorithm`
arguments). -/
def processLine (addr? algo? : Option String) (st : UpdSt) (line : String) :
    Except UpdateError UpdSt :=
  if rustStartsWith "load balancer:" line then
    .ok { st with cfg := { st.cfg with load_balancer :=
      (match parseUri (addr?.getD (rustTrim (trimStartMatches "load balancer:" line))) with
        | some u => u
        | none => defaultLoadBalancer) } }
  else if rustStartsWith "algorithm:" line then
    .ok { st with cfg := { st.cfg with algo :=
      (get_algo (algo?.getD (rustTrim (trimStartMatches "algorithm:" line)))) } }
  else if rustStartsWith "servers:" line then
    match parseUriList ((splitOnComma (rustTrim (trimStartMatches "servers:" line))).map
        rustTrim) with
    | .error e => .error e
    | .ok us => .ok { st with servers := us }
  else if rustStartsWith "weights:" line then
    match parseNatList parseU32 .invalidWeight
        ((splitOnComma (rustTrim (trimStartMatches "weights:" line))).map rustTrim) with
    | .error e => .error e
    | .ok ws => .ok { st with weights := ws }
  else if rustStartsWith "max connections:" line then
    match parseNatList parseU32 .invalidMaxConnection
        ((splitOnComma (rustTrim (trimStartMatches "max connections:" line))).map rustTrim) with
    | .error e => .error e
    | .ok ms => .ok { st with maxConns := ms }
  else if rustStartsWith "timeout:" line then
    match parseU64 (rustTrim (trimStartMatches "timeout:" line)) with
    | none => .error .invalidTimeout
    | some t => .ok { st with cfg := { st.cfg with timeout := t } }
  else if rustStartsWith "health check interval:" line then
    match parseU64 (rustTrim (trimStartMatches "health check interval:" line)) with
    | none => .error .invalidInterval
    | some t => .ok { st with cfg := { st.cfg with health_check_interval := t } }
  else .ok st

/-- The final loop of `Config::update`:
`for i in 0..servers.len() { self.servers.push(Server::new(servers[i].clone(), weights[i], max_connections[i])) }`.
Indexing `weights[i]` or `max_connections[i]` out of bounds is a
panic. -/
def buildServers : List Uri → List Nat → List Nat → Except UpdateError (List Server)
  | [], _, _ => .ok []
  | _ :: _, [], _ => .error .indexOutOfBounds
  | _ :: _, _ :: _, [] => .error .indexOutOfBounds
  | u :: us, w :: ws, m :: ms =>
      match buildServers us ws ms with
      | .error e => .error e
      | .ok rest => .ok (Server.new u w m :: rest)

/-- `Config::update` of src/main.rs, on the list of lines of the config
file: run the line loop, then append the newly built servers to
`self.servers`. -/
def Config.update (cfg : Config) (lines : List String) (addr? algo? : Option String) :
    Except UpdateError Config :=
  match lines.foldlM (processLine addr? algo?) (UpdSt.mk cfg [] [] []) with
  | .error e => .error e
  | .ok st =>
      match buildServers st.servers st.weights st.maxConns with
      | .error e => .error e
      | .ok newServers => .ok { st.cfg with servers := st.cfg.servers ++ newServers }

/-- The observable outcome of `main`: a fatal configuration error, the
server-count report (which returns before the `start` subcommand is
examined), the load balancer started with a final config, or the
invalid-command message. -/
inductive MainOutcome where
  | configError (e : UpdateError)
  | serverCountReport (n : Nat)
  | started (c : Config)
  | invalidCommand
deriving DecidableEq

/-- The control flow of `main` in src/main.rs: `Config::new`, a first
`update` from the config file with no overrides, then — if the
server-count flag is set — print `config.servers.len()` and return
without starting anything; otherwise, on the `start` subcommand, a
second `update` with the address and algorithm arguments (defaulted from
the current config) followed by `lb::start_lb`. -/
def mainFlow (lines : List String) (serverCountFlag : Bool) (subcommandStart : Bool)
    (addrArg algoArg : Option String) : MainOutcome :=
  match Config.new.update lines none none with
  | .error e => .configError e
  | .ok c =>
      if serverCountFlag then .serverCountReport c.servers.length
      else if subcommandStart then
        match c.update lines (some (addrArg.getD c.load_balancer.raw))
            (some (algoArg.getD (get_algo_rev c.algo))) with
        | .error e => .configError e
        | .ok c₂ => .started c₂
      else .invalidCommand

/-! ### Helper lemmas about the parsing and building loops -/

lemma parseUriList_length (xs : List String) (us : List Uri)
    (h : parseUriList xs = .ok us) : us.length = xs.length := by
  induction xs generalizing us with
  | nil =>
    simp only [parseUriList] at h
    cases h
    rfl
  | cons x rest ih =>
    simp only [parseUriList] at h
    cases hx : parseUri x with
    | none => rw [hx] at h; cases h
    | some u =>
      rw [hx] at h
      cases hr : parseUriList rest with
      | error e => rw [hr] at h; cases h
      | ok us' =>
        rw [hr] at h
        cases h
        simp [ih us' hr]

lemma parseUriList_error (xs : List String) (x : String) (hx : x ∈ xs)
    (hbad : parseUri x = none) : parseUriList xs = .error .invalidUri := by
  induction xs with
  | nil => cases hx
  | cons y rest ih =>
    simp only [parseUriList]
    rcases List.mem_cons.mp hx with rfl | hmem
    · rw [hbad]
    · cases hy : parseUri y with
      | none => rfl
      | some u => rw [ih hmem]

lemma parseNatList_error (parse : String → Option Nat) (e : UpdateError)
    (xs : List String) (x : String) (hx : x ∈ xs) (hbad : parse x = none) :
    parseNatList parse e xs = .error e := by
  induction xs with
  | nil => cases hx
  | cons y rest ih =>
    simp only [parseNatList]
    rcases List.mem_cons.mp hx with rfl | hmem
    · rw [hbad]
    · cases hy : parse y with
      | none => rfl
      | some n => rw [ih hmem]

lemma buildServers_length (us : List Uri) (ws ms : List Nat) (l : List Server)
    (h : buildServers us ws ms = .ok l) : l.length = us.length := by
  induction us generalizing ws ms l with
  | nil => simp only [buildServers] at h; cases h; rfl
  | cons u us ih =>
    cases ws with
    | nil => simp [buildServers] at h
    | cons w ws =>
      cases ms with
      | nil => simp [buildServers] at h
      | cons m ms =>
        simp only [buildServers] at h
        cases hr : buildServers us ws ms with
        | error e => rw [hr] at h; cases h
        | ok rest =>
          rw [hr] at h
          cases h
          simp [ih ws ms rest hr]

lemma buildServers_zipWith (us : List Uri) (ws ms : List Nat) (l : List Server)
    (h : buildServers us ws ms = .ok l) :
    l = List.zipWith (fun u wm => Server.new u wm.1 wm.2) us (ws.zip ms) := by
  induction us generalizing ws ms l with
  | nil => simp only [buildServers] at h; cases h; rfl
  | cons u us ih =>
    cases ws with
    | nil => simp [buildServers] at h
    | cons w ws =>
      cases ms with
      | nil => simp [buildServers] at h
      | cons m ms =>
        simp only [buildServers] at h
        cases hr : buildServers us ws ms with
        | error e => rw [hr] at h; cases h
        | ok rest =>
          rw [hr] at h
          cases h
          simp [ih ws ms rest hr]

lemma buildServers_short (us : List Uri) (ws ms : List Nat)
    (h : ws.length < us.length ∨ ms.length < us.length) :
    buildServers us ws ms = .error .indexOutOfBounds := by
  induction us generalizing ws ms with
  | nil => simp at h
  | cons u us ih =>
    cases ws with
    | nil => rfl
    | cons w ws =>
      cases ms with
      | nil => rfl
      | cons m ms =>
        have h' : ws.length < us.length ∨ ms.length < us.length := by
          rcases h with h | h
          · exact Or.inl (Nat.lt_of_succ_lt_succ h)
          · exact Or.inr (Nat.lt_of_succ_lt_succ h)
        simp only [buildServers]
        rw [ih ws ms h']

/-- Accumulator projection of the line-loop state: the three local
vectors, without the config being mutated. -/
def UpdSt.acc (st : UpdSt) : List Uri × List Nat × List Nat :=
  (st.servers, st.weights, st.maxConns)

lemma exceptBind_ok {α β ε : Type} (a : α) (f : α → Except ε β) :
    (Except.ok a >>= f) = f a := rfl

lemma exceptBind_error {α β ε : Type} (e : ε) (f : α → Except ε β) :
    ((Except.error e : Except ε α) >>= f) = .error e := rfl

lemma processLine_servers_eq (a? g? : Option String) (st st' : UpdSt) (line : String)
    (hline : rustStartsWith "servers:" line = false)
    (h : processLine a? g? st line = .ok st') : st'.servers = st.servers := by
  unfold processLine at h
  split_ifs at h with h1 h2 h3 h4 h5 h6 h7
  · cases h; rfl
  · cases h; rfl
  · rw [hline] at h3; cases h3
  · split at h <;> cases h <;> rfl
  · split at h <;> cases h <;> rfl
  · split at h <;> cases h <;> rfl
  · split at h <;> cases h <;> rfl
  · cases h; rfl

lemma processLine_cfg_lists (a? g? : Option String) (st st' : UpdSt) (line : String)
    (h : processLine a? g? st line = .ok st') :
    st'.cfg.servers = st.cfg.servers ∧ st'.cfg.dead_servers = st.cfg.dead_servers := by
  unfold processLine at h
  split_ifs at h
  · cases h; exact ⟨rfl, rfl⟩
  · cases h; exact ⟨rfl, rfl⟩
  · split at h <;> cases h <;> exact ⟨rfl, rfl⟩
  · split at h <;> cases h <;> exact ⟨rfl, rfl⟩
  · split at h <;> cases h <;> exact ⟨rfl, rfl⟩
  · split at h <;> cases h <;> exact ⟨rfl, rfl⟩
  · split at h <;> cases h <;> exact ⟨rfl, rfl⟩
  · cases h; exact ⟨rfl, rfl⟩

lemma processLine_acc_eq (a? g? b? k? : Option String) (c c' : Config)
    (us : List Uri) (ws ms : List Nat) (line : String) :
    (processLine a? g? (UpdSt.mk c us ws ms) line).map UpdSt.acc
      = (processLine b? k? (UpdSt.mk c' us ws ms) line).map UpdSt.acc := by
  unfold processLine
  split_ifs
  · rfl
  · rfl
  · cases hp : parseUriList ((splitOnComma (rustTrim (trimStartMatches "servers:" line))).map
        rustTrim) <;> rfl
  · cases hp : parseNatList parseU32 .invalidWeight
      ((splitOnComma (rustTrim (trimStartMatches "weights:" line))).map rustTrim) <;> rfl
  · cases hp : parseNatList parseU32 .invalidMaxConnection
      ((splitOnComma (rustTrim (trimStartMatches "max connections:" line))).map rustTrim) <;> rfl
  · cases hp : parseU64 (rustTrim (trimStartMatches "timeout:" line)) <;> rfl
  · cases hp : parseU64 (rustTrim (trimStartMatches "health check interval:" line)) <;> rfl
  · rfl

lemma foldlM_servers_eq (lines : List String) : ∀ (a? g? : Option String) (st st' : UpdSt),
    (∀ l ∈ lines, rustStartsWith "servers:" l = false) →
    lines.foldlM (processLine a? g?) st = .ok st' → st'.servers = st.servers := by
  induction lines with
  | nil =>
    intro a g st st' _ h
    rw [List.foldlM_nil] at h
    cases h
    rfl
  | cons l ls ih =>
    intro a g st st' hl h
    rw [List.foldlM_cons] at h
    cases hp : processLine a g st l with
    | error e => rw [hp, exceptBind_error] at h; cases h
    | ok st₁ =>
      rw [hp, exceptBind_ok] at h
      have h₁ := processLine_servers_eq a g st st₁ l (hl l (List.mem_cons_self l ls)) hp
      have h₂ := ih a g st₁ st' (fun x hx => hl x (List.mem_cons_of_mem l hx)) h
      rw [h₂, h₁]

lemma foldlM_cfg_lists (lines : List String) : ∀ (a? g? : Option String) (st st' : UpdSt),
    lines.foldlM (processLine a? g?) st = .ok st' →
    st'.cfg.servers = st.cfg.servers ∧ st'.cfg.dead_servers = st.cfg.dead_servers := by
  induction lines with
  | nil =>
    intro a g st st' h
    rw [List.foldlM_nil] at h
    cases h
    exact ⟨rfl, rfl⟩
  | cons l ls ih =>
    intro a g st st' h
    rw [List.foldlM_cons] at h
    cases hp : processLine a g st l with
    | error e => rw [hp, exceptBind_error] at h; cases h
    | ok st₁ =>
      rw [hp, exceptBind_ok] at h
      have h₁ := processLine_cfg_lists a g st st₁ l hp
      have h₂ := ih a g st₁ st' h
      exact ⟨h₂.1.trans h₁.1, h₂.2.trans h₁.2⟩

lemma foldlM_acc_eq (lines : List String) : ∀ (a? g? b? k? : Option String) (c c' : Config)
    (us : List Uri) (ws ms : List Nat),
    (lines.foldlM (processLine a? g?) (UpdSt.mk c us ws ms)).map UpdSt.acc
      = (lines.foldlM (processLine b? k?) (UpdSt.mk c' us ws ms)).map UpdSt.acc := by
  induction lines with
  | nil => intros; rfl
  | cons l ls ih =>
    intro a g b k c c' us ws ms
    rw [List.foldlM_cons, List.foldlM_cons]
    have hpl := processLine_acc_eq a g b k c c' us ws ms l
    cases h₁ : processLine a g (UpdSt.mk c us ws ms) l with
    | error e =>
      cases h₂ : processLine b k (UpdSt.mk c' us ws ms) l with
      | error e' =>
        rw [h₁, h₂] at hpl
        simp only [Except.map, Except.error.injEq] at hpl
        rw [exceptBind_error, exceptBind_error, hpl]
      | ok st₂ => rw [h₁, h₂] at hpl; simp [Except.map] at hpl
    | ok st₁ =>
      cases h₂ : processLine b k (UpdSt.mk c' us ws ms) l with
      | error e => rw [h₁, h₂] at hpl; simp [Except.map] at hpl
      | ok st₂ =>
        rw [h₁, h₂] at hpl
        simp only [Except.map, Except.ok.injEq] at hpl
        obtain ⟨c₁, u₁, w₁, m₁⟩ := st₁
        obtain ⟨c₂, u₂, w₂, m₂⟩ := st₂
        simp only [UpdSt.acc, Prod.mk.injEq] at hpl
        obtain ⟨hu, hw, hm⟩ := hpl
        subst hu hw hm
        rw [exceptBind_ok, exceptBind_ok]
        exact ih a g b k c₁ c₂ u₁ w₁ m₁

lemma update_ok_decomp (cfg : Config) (lines : List String) (a? g? : Option String)
    (c : Config) (h : cfg.update lines a? g? = .ok c) :
    ∃ st ns, lines.foldlM (processLine a? g?) (UpdSt.mk cfg [] [] []) = .ok st ∧
      buildServers st.servers st.weights st.maxConns = .ok ns ∧
      c = { st.cfg with servers := st.cfg.servers ++ ns } := by
  cases hf : lines.foldlM (processLine a? g?) (UpdSt.mk cfg [] [] []) with
  | error e =>
    have heq : cfg.update lines a? g? = .error e := by
      unfold Config.update
      simp only [hf]
    rw [heq] at h
    cases h
  | ok st =>
    cases hb : buildServers st.servers st.weights st.maxConns with
    | error e =>
      have heq : cfg.update lines a? g? = .error e := by
        unfold Config.update
        simp only [hf, hb]
      rw [heq] at h
      cases h
    | ok ns =>
      have heq : cfg.update lines a? g? = .ok { st.cfg with servers := st.cfg.servers ++ ns } := by
        unfold Config.update
        simp only [hf, hb]
      rw [heq] at h
      cases h
      exact ⟨st, ns, rfl, hb, rfl⟩

lemma processLine_servers_branch (a? g? : Option String) (st st' : UpdSt) (l : String)
    (h1 : rustStartsWith "load balancer:" l = false)
    (h2 : rustStartsWith "algorithm:" l = false)
    (h3 : rustStartsWith "servers:" l = true)
    (h : processLine a? g? st l = .ok st') :
    parseUriList ((splitOnComma (rustTrim (trimStartMatches "servers:" l))).map rustTrim)
      = .ok st'.servers := by
  unfold processLine at h
  simp only [h1, h2, h3, Bool.false_eq_true, if_false, if_true] at h
  cases hq : parseUriList ((splitOnComma (rustTrim (trimStartMatches "servers:" l))).map
      rustTrim) with
  | error e => simp only [hq] at h; cases h
  | ok us =>
    simp only [hq] at h
    cases h
    rfl

/-! ### The claims -/

/-- C1: every algorithm-name string that is not one of the six case-sensitive
identifiers maps to the RoundRobin algorithm under `get_algo`, so the
configured algorithm is always one of the six enumeration variants. -/
theorem get_algo_default_round_robin (s : String)
    (h : s ∉ (["round_robin", "weighted_round_robin", "least_connections",
      "weighted_least_connections", "least_response_time",
      "weighted_least_response_time"] : List String)) :
    get_algo s = Algorithm.RoundRobin := by
  simp only [List.mem_cons, List.not_mem_nil, or_false, not_or] at h
  obtain ⟨h1, h2, h3, h4, h5, h6⟩ := h
  simp [get_algo, h1, h2, h3, h4, h5, h6]

/-- Witness for the C1 theorem at the concrete unrecognized string "fifo". -/
theorem get_algo_default_round_robin_witness :
    get_algo "fifo" = Algorithm.RoundRobin :=
  get_algo_default_round_robin "fifo" (by decide)

/-- C5: a server built by `Server::new` starts with zero response time and
zero active connections, and carries the given address, weight and
max-connections cap. -/
theorem server_new_initial_state (a : Uri) (w m : Nat) :
    (Server.new a w m).response_time = 0 ∧ (Server.new a w m).connections = 0 ∧
      (Server.new a w m).addr = a ∧ (Server.new a w m).weight = w ∧
      (Server.new a w m).max_connections = m :=
  ⟨rfl, rfl, rfl, rfl, rfl⟩

/-- C7: `get_algo` and `get_algo_rev` round-trip: composing them is the
identity on the `Algorithm` enumeration, and on each of the six identifier
strings. -/
theorem algo_name_round_trip :
    (∀ a : Algorithm, get_algo (get_algo_rev a) = a) ∧
      get_algo_rev (get_algo "round_robin") = "round_robin" ∧
      get_algo_rev (get_algo "weighted_round_robin") = "weighted_round_robin" ∧
      get_algo_rev (get_algo "least_connections") = "least_connections" ∧
      get_algo_rev (get_algo "weighted_least_connections") = "weighted_least_connections" ∧
      get_algo_rev (get_algo "least_response_time") = "least_response_time" ∧
      get_algo_rev (get_algo "weighted_least_response_time")
        = "weighted_least_response_time" := by
  refine ⟨fun a => ?_, by decide, by decide, by decide, by decide, by decide, by decide⟩
  cases a <;> decide

/-- C3 (zero weight accepted): a configuration selecting the weighted
round-robin algorithm and assigning weight 0 passes `Config::update` without
any error — there is no config-time rejection of zero weights. -/
theorem update_accepts_zero_weight :
    Config.new.update ["algorithm: weighted_round_robin", "servers: http://a",
      "weights: 0", "max connections: 5"] none none
      = .ok { Config.new with algo := .WeightedRoundRobin, servers := [Server.new ⟨"http://a"⟩ 0 5] } := by rfl

/-- C6 (no weight defaulting): a configuration that lists a server but no
weights makes `Config::update` hit the out-of-bounds index panic instead of
defaulting the weight to 1. -/
theorem update_panics_without_weights :
    Config.new.update ["servers: http://a"] none none = .error .indexOutOfBounds := by rfl

/-- C2 counterexample: a configuration with 1 server, 2 weights and 2
max-connections entries (mismatched list lengths) is accepted by
`Config::update`: the mismatch is not fatal when the weights and
max-connections lists are the longer ones. -/
theorem update_accepts_longer_lists :
    Config.new.update ["servers: http://a", "weights: 1,2", "max connections: 5,6"]
      none none = .ok { Config.new with servers := [Server.new ⟨"http://a"⟩ 1 5] } := by rfl

/-- C2 amended: the mismatch is fatal exactly through the index panic —
whenever the line loop leaves fewer weights or fewer max-connections entries
than servers, `Config::update` aborts with the out-of-bounds panic and the
process does not begin serving traffic. -/
theorem update_fatal_when_lists_shorter (cfg : Config) (lines : List String)
    (a? g? : Option String) (st : UpdSt)
    (hfold : lines.foldlM (processLine a? g?) (UpdSt.mk cfg [] [] []) = .ok st)
    (hlen : st.weights.length < st.servers.length
      ∨ st.maxConns.length < st.servers.length) :
    cfg.update lines a? g? = .error .indexOutOfBounds := by
  unfold Config.update
  simp only [hfold, buildServers_short st.servers st.weights st.maxConns hlen]

/-- Witness for the C2 amended theorem: two servers but a single weight
abort `Config::update` with the index panic. -/
theorem update_fatal_when_lists_shorter_witness :
    Config.new.update ["servers: http://a,http://b", "weights: 1", "max connections: 5,5"]
      none none = .error .indexOutOfBounds :=
  update_fatal_when_lists_shorter Config.new
    ["servers: http://a,http://b", "weights: 1", "max connections: 5,5"] none none
    (UpdSt.mk Config.new [⟨"http://a"⟩, ⟨"http://b"⟩] [1] [5, 5]) (by rfl) (by decide)

/-- C4 counterexample: an unparsable load-balancer listen address is not
fatal — `Config::update` silently falls back to the default listen address
and completes successfully. -/
theorem unparsable_lb_address_not_fatal :
    parseUri "not a uri" = none ∧
      Config.new.update ["load balancer: not a uri", "servers: http://a", "weights: 1",
        "max connections: 5"] none none
        = .ok { Config.new with load_balancer := defaultLoadBalancer, servers := [Server.new ⟨"http://a"⟩ 1 5] } :=
  ⟨by decide, by rfl⟩

/-- C4 amended: an unparsable backend server address or weight entry is
fatal (`Config::update` aborts on the corresponding `expect` panic before
serving traffic); the load-balancer listen line is excluded, since an
unparsable listen address falls back to the default. -/
theorem update_fatal_on_unparsable_server_or_weight (cfg : Config)
    (pre post : List String) (l : String) (a? g? : Option String) (st : UpdSt)
    (hpre : pre.foldlM (processLine a? g?) (UpdSt.mk cfg [] [] []) = .ok st)
    (hcase :
      (rustStartsWith "load balancer:" l = false ∧ rustStartsWith "algorithm:" l = false ∧
        rustStartsWith "servers:" l = true ∧
        ∃ x ∈ (splitOnComma (rustTrim (trimStartMatches "servers:" l))).map rustTrim,
          parseUri x = none) ∨
      (rustStartsWith "load balancer:" l = false ∧ rustStartsWith "algorithm:" l = false ∧
        rustStartsWith "servers:" l = false ∧ rustStartsWith "weights:" l = true ∧
        ∃ x ∈ (splitOnComma (rustTrim (trimStartMatches "weights:" l))).map rustTrim,
          parseU32 x = none)) :
    (cfg.update (pre ++ l :: post) a? g?).isOk = false := by
  have hline : ∃ err, processLine a? g? st l = .error err := by
    rcases hcase with ⟨h1, h2, h3, x, hx, hbad⟩ | ⟨h1, h2, h3, h4, x, hx, hbad⟩
    · refine ⟨.invalidUri, ?_⟩
      unfold processLine
      simp only [h1, h2, h3, Bool.false_eq_true, if_false, if_true]
      rw [parseUriList_error _ x hx hbad]
    · refine ⟨.invalidWeight, ?_⟩
      unfold processLine
      simp only [h1, h2, h3, h4, Bool.false_eq_true, if_false, if_true]
      rw [parseNatList_error parseU32 .invalidWeight _ x hx hbad]
  obtain ⟨err, herr⟩ := hline
  have hfold : (pre ++ l :: post).foldlM (processLine a? g?) (UpdSt.mk cfg [] [] [])
      = .error err := by
    rw [List.foldlM_append, hpre, exceptBind_ok, List.foldlM_cons, herr, exceptBind_error]
  unfold Config.update
  simp only [hfold]
  rfl

/-- Witness for the C4 amended theorem: a servers line whose entry is not a
parsable URI aborts `Config::update`. -/
theorem update_fatal_on_unparsable_server_or_weight_witness :
    (Config.new.update ["servers: bad uri"] none none).isOk = false :=
  update_fatal_on_unparsable_server_or_weight Config.new [] [] "servers: bad uri"
    none none (UpdSt.mk Config.new [] [] []) (by rfl) (by decide)

/-- C8: with the server-count flag set, `main` reports exactly the number of
comma-separated addresses on the configuration's servers line and returns
without starting the load balancer. -/
theorem server_count_reports_listed (pre post : List String) (l : String) (c : Config)
    (sub : Bool) (aArg gArg : Option String)
    (h1 : rustStartsWith "load balancer:" l = false)
    (h2 : rustStartsWith "algorithm:" l = false)
    (h3 : rustStartsWith "servers:" l = true)
    (hpost : ∀ x ∈ post, rustStartsWith "servers:" x = false)
    (hok : Config.new.update (pre ++ l :: post) none none = .ok c) :
    mainFlow (pre ++ l :: post) true sub aArg gArg
      = .serverCountReport
          (splitOnComma (rustTrim (trimStartMatches "servers:" l))).length := by
  obtain ⟨st, ns, hfold, hbuild, hc⟩ := update_ok_decomp _ _ _ _ _ hok
  rw [List.foldlM_append] at hfold
  cases hp : pre.foldlM (processLine none none) (UpdSt.mk Config.new [] [] []) with
  | error e => rw [hp, exceptBind_error] at hfold; cases hfold
  | ok st₀ =>
    rw [hp, exceptBind_ok, List.foldlM_cons] at hfold
    cases hl : processLine none none st₀ l with
    | error e => rw [hl, exceptBind_error] at hfold; cases hfold
    | ok st₁ =>
      rw [hl, exceptBind_ok] at hfold
      have hbr := processLine_servers_branch none none st₀ st₁ l h1 h2 h3 hl
      have hsv : st.servers = st₁.servers := foldlM_servers_eq post none none st₁ st hpost hfold
      have hlen₁ : st₁.servers.length
          = ((splitOnComma (rustTrim (trimStartMatches "servers:" l))).map rustTrim).length :=
        parseUriList_length _ _ hbr
      have hns : ns.length = st.servers.length := buildServers_length _ _ _ _ hbuild
      have hcfg : st.cfg.servers = [] := by
        have hpost' := foldlM_cfg_lists post none none st₁ st hfold
        have hl' := processLine_cfg_lists none none st₀ st₁ l hl
        have hpre' := foldlM_cfg_lists pre none none _ st₀ hp
        rw [hpost'.1, hl'.1, hpre'.1]
        exact rfl
      have hclen : c.servers.length
          = (splitOnComma (rustTrim (trimStartMatches "servers:" l))).length := by
        rw [hc]
        show (st.cfg.servers ++ ns).length = _
        rw [hcfg, List.nil_append, hns, hsv, hlen₁, List.length_map]
      unfold mainFlow
      simp only [hok, if_true]
      rw [hclen]

/-- Witness for the C8 theorem: a two-server configuration reports 2. -/
theorem server_count_reports_listed_witness :
    mainFlow ["servers: http://a,http://b", "weights: 1,2", "max connections: 5,6"]
      true false none none = .serverCountReport 2 :=
  server_count_reports_listed [] ["weights: 1,2", "max connections: 5,6"]
    "servers: http://a,http://b"
    { Config.new with servers := [Server.new ⟨"http://a"⟩ 1 5, Server.new ⟨"http://b"⟩ 2 6] }
    false none none (by decide) (by decide) (by decide) (by decide) (by rfl)

/-- C9: after `Config::new` and one successful `Config::update`, the dead
list is empty and the servers list is exactly the configured servers —
`Server::new` of each parsed address with its positional weight and
max-connections cap, in configuration order. -/
theorem startup_all_servers_alive (lines : List String) (a? g? : Option String)
    (c : Config) (hok : Config.new.update lines a? g? = .ok c) :
    c.dead_servers = [] ∧
      ∃ st, lines.foldlM (processLine a? g?) (UpdSt.mk Config.new [] [] []) = .ok st ∧
        c.servers = List.zipWith (fun u wm => Server.new u wm.1 wm.2) st.servers
          (st.weights.zip st.maxConns) := by
  obtain ⟨st, ns, hfold, hbuild, hc⟩ := update_ok_decomp _ _ _ _ _ hok
  have hcl := foldlM_cfg_lists lines a? g? _ _ hfold
  have h1 : st.cfg.servers = [] := by rw [hcl.1]; exact rfl
  have hd : st.cfg.dead_servers = [] := by rw [hcl.2]; exact rfl
  have h2 := buildServers_zipWith _ _ _ _ hbuild
  refine ⟨?_, st, hfold, ?_⟩
  · rw [hc]
    show st.cfg.dead_servers = []
    exact hd
  · rw [hc]
    show st.cfg.servers ++ ns = _
    rw [h1, List.nil_append]
    exact h2

/-- Witness for the C9 theorem on a one-server configuration. -/
theorem startup_all_servers_alive_witness :
    ({ Config.new with servers := [Server.new ⟨"http://a"⟩ 2 7] } : Config).dead_servers = [] ∧
      ∃ st, ["servers: http://a", "weights: 2", "max connections: 7"].foldlM
          (processLine none none) (UpdSt.mk Config.new [] [] []) = .ok st ∧
        ({ Config.new with servers := [Server.new ⟨"http://a"⟩ 2 7] } : Config).servers
          = List.zipWith (fun u wm => Server.new u wm.1 wm.2) st.servers
              (st.weights.zip st.maxConns) :=
  startup_all_servers_alive ["servers: http://a", "weights: 2", "max connections: 7"]
    none none { Config.new with servers := [Server.new ⟨"http://a"⟩ 2 7] } (by rfl)

/-- C10 (implicit append bug): `Config::update` appends to the existing
server list, so two successive updates from the same configuration lines —
as the `start` path performs — leave every configured server present twice. -/
theorem double_update_duplicates_servers (lines : List String)
    (a? g? b? k? : Option String) (c₁ c₂ : Config)
    (h1 : Config.new.update lines a? g? = .ok c₁)
    (h2 : c₁.update lines b? k? = .ok c₂) :
    c₂.servers = c₁.servers ++ c₁.servers ∧
      ∀ s : Server, c₂.servers.count s = 2 * c₁.servers.count s := by
  obtain ⟨st₁, ns₁, hf₁, hb₁, hc₁⟩ := update_ok_decomp _ _ _ _ _ h1
  obtain ⟨st₂, ns₂, hf₂, hb₂, hc₂⟩ := update_ok_decomp _ _ _ _ _ h2
  have hacc := foldlM_acc_eq lines a? g? b? k? Config.new c₁ [] [] []
  rw [hf₁, hf₂] at hacc
  simp only [Except.map, Except.ok.injEq] at hacc
  have hsv : st₁.servers = st₂.servers := congrArg Prod.fst hacc
  have hwt : st₁.weights = st₂.weights := congrArg (fun p => p.2.1) hacc
  have hmc : st₁.maxConns = st₂.maxConns := congrArg (fun p => p.2.2) hacc
  have hns : ns₂ = ns₁ := by
    rw [← hsv, ← hwt, ← hmc, hb₁] at hb₂
    cases hb₂
    rfl
  have e₁ : st₁.cfg.servers = [] := by
    rw [(foldlM_cfg_lists lines a? g? _ _ hf₁).1]
    exact rfl
  have e₂ : st₂.cfg.servers = c₁.servers :=
    (foldlM_cfg_lists lines b? k? _ _ hf₂).1
  have hc₁s : c₁.servers = ns₁ := by
    rw [hc₁]
    show st₁.cfg.servers ++ ns₁ = ns₁
    rw [e₁, List.nil_append]
  have main : c₂.servers = c₁.servers ++ c₁.servers := by
    rw [hc₂]
    show st₂.cfg.servers ++ ns₂ = c₁.servers ++ c₁.servers
    rw [e₂, hns, ← hc₁s]
  exact ⟨main, fun s => by rw [main, List.count_append, two_mul]⟩

/-- Witness for the C10 theorem: one server configured, present twice after
the second update. -/
theorem double_update_duplicates_servers_witness :
    ({ Config.new with servers := [Server.new ⟨"http://a"⟩ 1 5, Server.new ⟨"http://a"⟩ 1 5] } : Config).servers
        = ({ Config.new with servers := [Server.new ⟨"http://a"⟩ 1 5] } : Config).servers
          ++ ({ Config.new with servers := [Server.new ⟨"http://a"⟩ 1 5] } : Config).servers ∧
      ∀ s : Server,
        ({ Config.new with servers := [Server.new ⟨"http://a"⟩ 1 5, Server.new ⟨"http://a"⟩ 1 5] } : Config).servers.count s
          = 2 * ({ Config.new with servers := [Server.new ⟨"http://a"⟩ 1 5] } : Config).servers.count s :=
  double_update_duplicates_servers ["servers: http://a", "weights: 1", "max connections: 5"]
    none none none none
    { Config.new with servers := [Server.new ⟨"http://a"⟩ 1 5] }
    { Config.new with servers := [Server.new ⟨"http://a"⟩ 1 5, Server.new ⟨"http://a"⟩ 1 5] }
    (by rfl) (by rfl)
